import Mathlib

/-!
Shallow embedding of the Node.js binary resolution/validation core
(`NodeBinaryProvider` and `NodeBinary` from the debugger's
`nodeBinaryProvider` module), together with proofs of the specified
behaviour of `resolveAndValidate`, `getVersionText` and the
`canUseSpacesInRequirePath` capability projection.

Modelling decisions:
* The external collaborators (`findInPath` over the environment's PATH and
  `spawnAsync binary ['--version']`) are packaged as an opaque-but-total
  `EnvModel` record of functions; `none` from the spawn function models any
  subprocess failure (rejection of the promise).
* `ProtocolError` payloads are the two-constructor inductive
  `NodeSearchError`: `cannotFindNodeBinary` becomes `binaryNotFound` and
  `nodeBinaryOutOfDate` becomes `binaryOutOfDate`; the
  `e.cause.id === ErrorCodes.NodeBinaryOutOfDate` test in the catch clause
  becomes a match on the constructor.
* The instance field `knownGoodMappings : Map<string, NodeBinary>` becomes an
  explicitly threaded association list `Cache`; `Map.get` is `cacheLookup`
  and `Map.set` is `cacheInsert` (front insertion, first-match lookup, which
  is observationally the same as overwrite).
* The recursive method call is given a `fuel` argument; every call consumes
  one unit, and an exhausted budget yields `none`.  JavaScript numeric
  truthiness (`if (explicitVersion)`, `this.majorVersion ? _ : _`,
  `if (!location)`) is modelled as the explicit comparisons with `0` / `""`.
-/

namespace NodeBinaryProvider

/-- Node's `path.isAbsolute` (posix form): the path starts with a slash. -/
def isAbsolutePosix (p : String) : Bool :=
  match p.data with
  | '/' :: _ => true
  | _ => false

/-- Node's `path.basename` (posix form, for paths without a trailing slash):
the component after the last `/`. -/
def basenamePosix (p : String) : String :=
  ⟨p.data.foldl (fun acc c => if c = '/' then [] else acc ++ [c]) []⟩

/-- JavaScript's `String.prototype.trim`: strip whitespace from both ends. -/
def trimString (s : String) : String :=
  ⟨((s.data.dropWhile Char.isWhitespace).reverse.dropWhile Char.isWhitespace).reverse⟩

/-- The shape check `/^node(64)?(\.exe)?$/.test s`: the regex matches exactly
the four strings `node`, `node64`, `node.exe`, `node64.exe`. -/
def isNodeShape (s : String) : Bool :=
  s == "node" || s == "node64" || s == "node.exe" || s == "node64.exe"

/-- Semantics of `Number` applied to the captured digit string. -/
def digitsToNat (ds : List Char) : Nat :=
  ds.foldl (fun a c => a * 10 + (c.toNat - 48)) 0

/-- The version match `/^v([0-9]+)\./.exec version` followed by
`Number(majorVersion[1])`: a leading `v`, one or more digits, then a literal
dot; returns the captured major number, or `none` when the regex does not
match. -/
def execMajorVersion (s : String) : Option Nat :=
  match s.data with
  | 'v' :: rest =>
    let ds := rest.takeWhile Char.isDigit
    if ds ≠ [] ∧ (rest.drop ds.length).head? = some '.' then
      some (digitsToNat ds)
    else
      none
  | _ => none

/-- The DTO `NodeBinary { path, majorVersion }`; `none` is TypeScript's
`undefined`. -/
structure NodeBinary where
  path : String
  majorVersion : Option Nat
deriving DecidableEq, Repr

/-- Getter `canUseSpacesInRequirePath`: `{ return this.majorVersion ?
this.majorVersion >= 12 : true; }` — note JavaScript truthiness: a
`majorVersion` of `0` takes the `true` branch of the conditional. -/
def NodeBinary.canUseSpacesInRequirePath (b : NodeBinary) : Bool :=
  match b.majorVersion with
  | some v => if v ≠ 0 then decide (12 ≤ v) else true
  | none => true

/-- The two `ProtocolError` causes this module constructs:
`cannotFindNodeBinary(name)` and `nodeBinaryOutOfDate(trimmedText, path)`. -/
inductive NodeSearchError where
  | binaryNotFound (name : String)
  | binaryOutOfDate (versionText : String) (path : String)
deriving DecidableEq, Repr

/-- External collaborators: `findInPath executable env.value` and
`spawnAsync binary ['--version']` (the latter returning captured stdout, or
`none` for any spawn failure). -/
structure EnvModel where
  findInPath : String → Option String
  spawnVersion : String → Option String

/-- The `knownGoodMappings` map, threaded explicitly. -/
abbrev Cache := List (String × NodeBinary)

/-- Models `Map.get`. -/
def cacheLookup : Cache → String → Option NodeBinary
  | [], _ => none
  | (k, v) :: rest, key => if k = key then some v else cacheLookup rest key

/-- Models `Map.set` (front insertion; `cacheLookup` takes the first match, so this
is observationally overwrite). -/
def cacheInsert (c : Cache) (k : String) (v : NodeBinary) : Cache :=
  (k, v) :: c

/-- The location computation, including both JavaScript falsiness checks:
`executable && isAbsolute(executable) ? executable : findInPath(...)`
followed by `if (!location) throw ...` (an empty-string location counts as
not found). -/
def locate (env : EnvModel) (executable : String) : Option String :=
  let l? := if executable ≠ "" ∧ isAbsolutePosix executable then some executable
            else env.findInPath executable
  match l? with
  | some l => if l = "" then none else some l
  | none => none

/-- Method `getVersionText(binary)`: spawn the binary with `--version`; on any
subprocess failure throw `cannotFindNodeBinary(binary)`, otherwise return the
captured stdout unchanged. -/
def getVersionText (env : EnvModel) (binary : String) :
    Except NodeSearchError String :=
  match env.spawnVersion binary with
  | some out => .ok out
  | none => .error (.binaryNotFound binary)

/-- Method `resolveAndValidate(env, executable = 'node', explicitVersion?)`, with the
`knownGoodMappings` state threaded and a `fuel` bound on the recursion
(`none` = budget exhausted).  The body follows the source line by line:
locate; throw `binaryNotFound` when falsy; the `if (explicitVersion)`
truthiness shortcut; the shape check with the recursive `node` fallback and
its catch clause; the known-good cache check; the version probe; the
`/^v([0-9]+)\./` gate against major 8; cache store and return. -/
def resolveAndValidate (env : EnvModel) :
    Nat → String → Option Nat → Cache →
    Option (Except NodeSearchError NodeBinary × Cache)
  | 0, _, _, _ => none
  | fuel + 1, executable, explicitVersion, cache =>
    match locate env executable with
    | none => some (.error (.binaryNotFound executable), cache)
    | some location =>
      if explicitVersion.getD 0 ≠ 0 then
        some (.ok ⟨location, explicitVersion⟩, cache)
      else if ¬ isNodeShape (basenamePosix location) then
        match resolveAndValidate env fuel "node" none cache with
        | none => none
        | some (.ok realBinary, c') =>
          some (.ok ⟨location, realBinary.majorVersion⟩, c')
        | some (.error (.binaryOutOfDate t p), c') =>
          some (.error (.binaryOutOfDate t p), c')
        | some (.error (.binaryNotFound _), c') =>
          some (.ok ⟨location, none⟩, c')
      else
        match cacheLookup cache location with
        | some knownGood => some (.ok knownGood, cache)
        | none =>
          match getVersionText env location with
          | .error e => some (.error e, cache)
          | .ok version =>
            match execMajorVersion version with
            | none => some (.error (.binaryOutOfDate (trimString version) location), cache)
            | some m =>
              if m < 8 then
                some (.error (.binaryOutOfDate (trimString version) location), cache)
              else
                some (.ok ⟨location, some m⟩,
                      cacheInsert cache location ⟨location, some m⟩)

/-- Predicate on cache contents: every stored descriptor carries a defined
major version of at least 8 (the spec's ResolutionCache invariant). -/
def CacheGood (c : Cache) : Prop :=
  ∀ k b, cacheLookup c k = some b → ∃ m, b.majorVersion = some m ∧ 8 ≤ m

/-- Concrete environment: `node` on PATH at a shape-passing location
reporting `v14.2.0`, plus a shape-mismatched `nvm-node` shim. -/
def envNode14 : EnvModel :=
  ⟨fun s => if s = "node" then some "/usr/bin/node"
            else if s = "nvm-node" then some "/usr/local/bin/nvm-node" else none,
   fun p => if p = "/usr/bin/node" then some "v14.2.0\n" else none⟩

/-- Concrete environment: a `yarn` shim on PATH but no `node` anywhere. -/
def envNoNode : EnvModel :=
  ⟨fun s => if s = "yarn" then some "/usr/bin/yarn" else none, fun _ => none⟩

/-- Concrete environment: a `yarn` shim plus a real `node` reporting the
below-minimum `v5.0.0`. -/
def envOldNode : EnvModel :=
  ⟨fun s => if s = "yarn" then some "/usr/bin/yarn"
            else if s = "node" then some "/usr/bin/node" else none,
   fun p => if p = "/usr/bin/node" then some "v5.0.0\n" else none⟩

/-- Concrete environment whose probe reports `v7.10.0` (below minimum). -/
def envV7 : EnvModel := ⟨fun _ => some "/usr/bin/node", fun _ => some "v7.10.0"⟩

/-- Concrete environment whose probe reports exactly `v8.0.0` (boundary). -/
def envV8 : EnvModel := ⟨fun _ => some "/usr/bin/node", fun _ => some "v8.0.0"⟩

/-- Concrete environment whose probe reports the shapeless text `v8`. -/
def envV8bare : EnvModel := ⟨fun _ => some "/usr/bin/node", fun _ => some "v8"⟩

/-- Concrete environment whose probe reports `v7.0.0` (a stale install). -/
def envOld7 : EnvModel := ⟨fun _ => some "/usr/bin/node", fun _ => some "v7.0.0"⟩

/-- Concrete environment whose probe reports `v14.2.0` (after an upgrade in
place at the same path). -/
def envNew14 : EnvModel := ⟨fun _ => some "/usr/bin/node", fun _ => some "v14.2.0\n"⟩

/-- Concrete environment where the PATH search resolves the canonical name
`node` to a `node.cmd` wrapper, which fails the shape check. -/
def envNodeCmd : EnvModel :=
  ⟨fun s => if s = "node" then some "/usr/lib/node.cmd"
            else if s = "npm" then some "/usr/bin/npm" else none,
   fun _ => none⟩

theorem resolve_zero (env : EnvModel) (exe : String) (ev : Option Nat) (cache : Cache) :
    resolveAndValidate env 0 exe ev cache = none := rfl

theorem resolve_locate_none (env : EnvModel) (fuel : Nat) (exe : String)
    (ev : Option Nat) (cache : Cache) (h : locate env exe = none) :
    resolveAndValidate env (fuel + 1) exe ev cache =
      some (.error (.binaryNotFound exe), cache) := by
  conv_lhs => unfold resolveAndValidate
  rw [h]

theorem resolve_explicit (env : EnvModel) (fuel : Nat) (exe loc : String)
    (ev : Option Nat) (cache : Cache) (h : locate env exe = some loc)
    (hv : ev.getD 0 ≠ 0) :
    resolveAndValidate env (fuel + 1) exe ev cache =
      some (.ok ⟨loc, ev⟩, cache) := by
  conv_lhs => unfold resolveAndValidate
  rw [h]
  simp [hv]

theorem resolve_shape_mismatch (env : EnvModel) (fuel : Nat) (exe loc : String)
    (ev : Option Nat) (cache : Cache) (h : locate env exe = some loc)
    (hv : ev.getD 0 = 0) (hs : isNodeShape (basenamePosix loc) = false) :
    resolveAndValidate env (fuel + 1) exe ev cache =
      match resolveAndValidate env fuel "node" none cache with
      | none => none
      | some (.ok rb, c') => some (.ok ⟨loc, rb.majorVersion⟩, c')
      | some (.error (.binaryOutOfDate t p), c') => some (.error (.binaryOutOfDate t p), c')
      | some (.error (.binaryNotFound _), c') => some (.ok ⟨loc, none⟩, c') := by
  conv_lhs => unfold resolveAndValidate
  rw [h]
  simp [hv, hs]

theorem resolve_cached (env : EnvModel) (fuel : Nat) (exe loc : String)
    (ev : Option Nat) (cache : Cache) (g : NodeBinary) (h : locate env exe = some loc)
    (hv : ev.getD 0 = 0) (hs : isNodeShape (basenamePosix loc) = true)
    (hc : cacheLookup cache loc = some g) :
    resolveAndValidate env (fuel + 1) exe ev cache = some (.ok g, cache) := by
  conv_lhs => unfold resolveAndValidate
  rw [h]
  simp [hv, hs, hc]

theorem resolve_probe (env : EnvModel) (fuel : Nat) (exe loc : String)
    (ev : Option Nat) (cache : Cache) (h : locate env exe = some loc)
    (hv : ev.getD 0 = 0) (hs : isNodeShape (basenamePosix loc) = true)
    (hc : cacheLookup cache loc = none) :
    resolveAndValidate env (fuel + 1) exe ev cache =
      match getVersionText env loc with
      | .error e => some (.error e, cache)
      | .ok version =>
        match execMajorVersion version with
        | none => some (.error (.binaryOutOfDate (trimString version) loc), cache)
        | some m =>
          if m < 8 then some (.error (.binaryOutOfDate (trimString version) loc), cache)
          else some (.ok ⟨loc, some m⟩, cacheInsert cache loc ⟨loc, some m⟩) := by
  conv_lhs => unfold resolveAndValidate
  rw [h]
  simp [hv, hs, hc]

theorem locate_absolute (env : EnvModel) (exe : String) (hne : exe ≠ "")
    (habs : isAbsolutePosix exe = true) : locate env exe = some exe := by
  simp [locate, hne, habs]

/-- Claim C1: in the shape-mismatch fallback, an inner `binaryOutOfDate`
propagates unchanged, while any other inner error (`binaryNotFound`) is
swallowed and the outer call succeeds with the original location and an
undefined major version. -/
theorem claim_C1_fallback_error_asymmetry (env : EnvModel) (fuel : Nat)
    (exe loc : String) (cache : Cache) (e : NodeSearchError) (c' : Cache)
    (hloc : locate env exe = some loc)
    (hs : isNodeShape (basenamePosix loc) = false)
    (hinner : resolveAndValidate env fuel "node" none cache = some (.error e, c')) :
    (∀ t p, e = .binaryOutOfDate t p →
        resolveAndValidate env (fuel + 1) exe none cache =
          some (.error (.binaryOutOfDate t p), c')) ∧
    (∀ n, e = .binaryNotFound n →
        resolveAndValidate env (fuel + 1) exe none cache =
          some (.ok ⟨loc, none⟩, c')) := by
  constructor
  · intro t p he
    subst he
    rw [resolve_shape_mismatch env fuel exe loc none cache hloc rfl hs, hinner]
  · intro n he
    subst he
    rw [resolve_shape_mismatch env fuel exe loc none cache hloc rfl hs, hinner]

/-- Witness for claim C1 at concrete inputs, one per error kind. -/
theorem claim_C1_witness :
    (resolveAndValidate envNoNode 1 "node" none [] =
        some (.error (.binaryNotFound "node"), []) ∧
      resolveAndValidate envNoNode 2 "yarn" none [] =
        some (.ok ⟨"/usr/bin/yarn", none⟩, [])) ∧
    (resolveAndValidate envOldNode 1 "node" none [] =
        some (.error (.binaryOutOfDate "v5.0.0" "/usr/bin/node"), []) ∧
      resolveAndValidate envOldNode 2 "yarn" none [] =
        some (.error (.binaryOutOfDate "v5.0.0" "/usr/bin/node"), [])) :=
  ⟨⟨rfl, (claim_C1_fallback_error_asymmetry envNoNode 1 "yarn" "/usr/bin/yarn" []
      (.binaryNotFound "node") [] rfl rfl rfl).2 "node" rfl⟩,
   ⟨rfl, (claim_C1_fallback_error_asymmetry envOldNode 1 "yarn" "/usr/bin/yarn" []
      (.binaryOutOfDate "v5.0.0" "/usr/bin/node") [] rfl rfl rfl).1
      "v5.0.0" "/usr/bin/node" rfl⟩⟩

/-- Claim C2 (amended): once a location is found, a caller-supplied NON-ZERO
explicitVersion short-circuits everything: the call returns
`{ path := location, majorVersion := explicitVersion }` with the cache
unmodified, for every environment (hence independent of the probe). -/
theorem claim_C2_explicit_version_shortcut (env : EnvModel) (fuel : Nat)
    (exe loc : String) (v : Nat) (cache : Cache)
    (hloc : locate env exe = some loc) (hv : v ≠ 0) :
    resolveAndValidate env (fuel + 1) exe (some v) cache =
      some (.ok ⟨loc, some v⟩, cache) :=
  resolve_explicit env fuel exe loc (some v) cache hloc (by simpa using hv)

/-- Witness for claim C2: explicit version 6 at a shape-mismatched absolute
path, in an environment whose probe always fails (so no probe can have run). -/
theorem claim_C2_witness :
    locate (⟨fun _ => none, fun _ => none⟩ : EnvModel) "/usr/bin/my-node" =
      some "/usr/bin/my-node" ∧
    resolveAndValidate (⟨fun _ => none, fun _ => none⟩ : EnvModel) 1
        "/usr/bin/my-node" (some 6) [] =
      some (.ok ⟨"/usr/bin/my-node", some 6⟩, []) :=
  ⟨rfl, claim_C2_explicit_version_shortcut (⟨fun _ => none, fun _ => none⟩ : EnvModel)
    0 "/usr/bin/my-node" "/usr/bin/my-node" 6 [] rfl (by decide)⟩

/-- Counterexample to claim C2 as stated: `explicitVersion = 0` is
caller-supplied but JavaScript-falsy, so the shortcut is skipped: the call
runs the version probe (the error carries the probed text `v5.0.0`) and does
not return the descriptor with major version 0. -/
theorem claim_C2_counterexample :
    resolveAndValidate (⟨fun _ => none, fun _ => some "v5.0.0"⟩ : EnvModel) 1
        "/usr/bin/node" (some 0) [] =
      some (.error (.binaryOutOfDate "v5.0.0" "/usr/bin/node"), []) ∧
    resolveAndValidate (⟨fun _ => none, fun _ => some "v5.0.0"⟩ : EnvModel) 1
        "/usr/bin/node" (some 0) [] ≠
      some (.ok ⟨"/usr/bin/node", some 0⟩, []) := by
  refine ⟨rfl, fun h => ?_⟩
  rw [show resolveAndValidate (⟨fun _ => none, fun _ => some "v5.0.0"⟩ : EnvModel) 1
      "/usr/bin/node" (some 0) [] =
      some (.error (.binaryOutOfDate "v5.0.0" "/usr/bin/node"), []) from rfl] at h
  simp at h

/-- Claim C5 (amended): `canUseSpacesInRequirePath` is true exactly when the
major version is absent, is zero (JavaScript falsiness), or is at least 12;
with the three specified concrete instances. -/
theorem claim_C5_spaces_capability :
    (∀ b : NodeBinary, b.canUseSpacesInRequirePath = true ↔
        (b.majorVersion = none ∨ b.majorVersion = some 0 ∨
          ∃ m, b.majorVersion = some m ∧ 12 ≤ m)) ∧
    (NodeBinary.mk "/usr/bin/node" (some 11)).canUseSpacesInRequirePath = false ∧
    (NodeBinary.mk "/usr/bin/node" (some 12)).canUseSpacesInRequirePath = true ∧
    (NodeBinary.mk "/usr/bin/node" none).canUseSpacesInRequirePath = true := by
  refine ⟨?_, rfl, rfl, rfl⟩
  intro b
  cases hb : b.majorVersion with
  | none => simp [NodeBinary.canUseSpacesInRequirePath, hb]
  | some v =>
    by_cases hv : v = 0
    · subst hv; simp [NodeBinary.canUseSpacesInRequirePath, hb]
    · simp only [NodeBinary.canUseSpacesInRequirePath, hb]
      rw [if_pos hv]
      simp only [decide_eq_true_eq]
      constructor
      · intro h12; exact Or.inr (Or.inr ⟨v, rfl, h12⟩)
      · rintro (h | h | ⟨m, hm, h12⟩)
        · exact Option.noConfusion h
        · exact absurd (Option.some.inj h) hv
        · obtain rfl : v = m := Option.some.inj hm
          exact h12

/-- Counterexample to claim C5 as stated: a descriptor with a defined major
version 0 (below 12) reports the capability as true, because 0 is falsy in
the JavaScript conditional. -/
theorem claim_C5_counterexample :
    (NodeBinary.mk "/usr/bin/node" (some 0)).canUseSpacesInRequirePath = true ∧
    ¬ ((NodeBinary.mk "/usr/bin/node" (some 0)).majorVersion = none ∨
        ∃ m, (NodeBinary.mk "/usr/bin/node" (some 0)).majorVersion = some m ∧
          12 ≤ m) := by
  refine ⟨rfl, ?_⟩
  rintro (h | ⟨m, hm, h12⟩)
  · exact Option.noConfusion h
  · injection hm with hm'
    subst hm'
    exact absurd h12 (by decide)

/-- Claim C6: when the located path fails the shape check and the recursive
canonical-name call succeeds, the outer call returns the original location
paired with the recursively discovered major version. -/
theorem claim_C6_fallback_success (env : EnvModel) (fuel : Nat) (exe loc : String)
    (cache : Cache) (rb : NodeBinary) (c' : Cache)
    (hloc : locate env exe = some loc)
    (hs : isNodeShape (basenamePosix loc) = false)
    (hinner : resolveAndValidate env fuel "node" none cache = some (.ok rb, c')) :
    resolveAndValidate env (fuel + 1) exe none cache =
      some (.ok ⟨loc, rb.majorVersion⟩, c') := by
  rw [resolve_shape_mismatch env fuel exe loc none cache hloc rfl hs, hinner]

/-- Witness for claim C6: `nvm-node` (shape mismatch) with real `node`
reporting `v14.2.0` yields the nvm-node path with major version 14. -/
theorem claim_C6_witness :
    locate envNode14 "nvm-node" = some "/usr/local/bin/nvm-node" ∧
    isNodeShape (basenamePosix "/usr/local/bin/nvm-node") = false ∧
    resolveAndValidate envNode14 1 "node" none [] =
      some (.ok ⟨"/usr/bin/node", some 14⟩,
            [("/usr/bin/node", ⟨"/usr/bin/node", some 14⟩)]) ∧
    resolveAndValidate envNode14 2 "nvm-node" none [] =
      some (.ok ⟨"/usr/local/bin/nvm-node", some 14⟩,
            [("/usr/bin/node", ⟨"/usr/bin/node", some 14⟩)]) :=
  ⟨rfl, rfl, rfl,
   claim_C6_fallback_success envNode14 1 "nvm-node" "/usr/local/bin/nvm-node" []
     ⟨"/usr/bin/node", some 14⟩ [("/usr/bin/node", ⟨"/usr/bin/node", some 14⟩)]
     rfl rfl rfl⟩

/-- Claim C9: the version-text probe maps any subprocess failure to
`binaryNotFound` carrying the probed path, and passes captured stdout
through unmodified otherwise. -/
theorem claim_C9_probe_spec (env : EnvModel) (p : String) :
    (env.spawnVersion p = none →
      getVersionText env p = .error (.binaryNotFound p)) ∧
    (∀ out, env.spawnVersion p = some out → getVersionText env p = .ok out) := by
  constructor
  · intro h; simp [getVersionText, h]
  · intro out h; simp [getVersionText, h]

/-- Witness for claim C9: a failing spawn and a successful spawn whose output
(including the trailing newline) is passed through untouched. -/
theorem claim_C9_witness :
    getVersionText (⟨fun _ => none, fun _ => none⟩ : EnvModel) "/usr/bin/node" =
      .error (.binaryNotFound "/usr/bin/node") ∧
    getVersionText (⟨fun _ => none, fun _ => some "v14.2.0\n"⟩ : EnvModel)
      "/usr/bin/node" = .ok "v14.2.0\n" :=
  ⟨(claim_C9_probe_spec (⟨fun _ => none, fun _ => none⟩ : EnvModel)
      "/usr/bin/node").1 rfl,
   (claim_C9_probe_spec (⟨fun _ => none, fun _ => some "v14.2.0\n"⟩ : EnvModel)
      "/usr/bin/node").2 "v14.2.0\n" rfl⟩

/-- Claim C3: after a successful probe, the gate extracts the leading
`v<digits>.` pattern from the untrimmed text and fails with
`binaryOutOfDate` (carrying the trimmed text and the location) exactly when
the pattern is absent or the major is below 8; the literal `v7.10.0` fails,
`v8.0.0` succeeds with major 8, and `v8` (no trailing dot) fails. -/
theorem claim_C3_version_gate :
    (∀ (env : EnvModel) (fuel : Nat) (exe loc : String) (cache : Cache)
        (ver : String),
        locate env exe = some loc →
        isNodeShape (basenamePosix loc) = true →
        cacheLookup cache loc = none →
        env.spawnVersion loc = some ver →
        ((execMajorVersion ver = none ∨
            (∃ m, execMajorVersion ver = some m ∧ m < 8)) →
          resolveAndValidate env (fuel + 1) exe none cache =
            some (.error (.binaryOutOfDate (trimString ver) loc), cache)) ∧
        (∀ m, execMajorVersion ver = some m → 8 ≤ m →
          resolveAndValidate env (fuel + 1) exe none cache =
            some (.ok ⟨loc, some m⟩, cacheInsert cache loc ⟨loc, some m⟩))) ∧
    execMajorVersion "v7.10.0" = some 7 ∧
    execMajorVersion "v8.0.0" = some 8 ∧
    execMajorVersion "v8" = none ∧
    resolveAndValidate envV7 1 "node" none [] =
      some (.error (.binaryOutOfDate "v7.10.0" "/usr/bin/node"), []) ∧
    resolveAndValidate envV8 1 "node" none [] =
      some (.ok ⟨"/usr/bin/node", some 8⟩,
            [("/usr/bin/node", ⟨"/usr/bin/node", some 8⟩)]) ∧
    resolveAndValidate envV8bare 1 "node" none [] =
      some (.error (.binaryOutOfDate "v8" "/usr/bin/node"), []) := by
  refine ⟨?_, rfl, rfl, rfl, rfl, rfl, rfl⟩
  intro env fuel exe loc cache ver hloc hs hc hspawn
  have hstep := resolve_probe env fuel exe loc none cache hloc rfl hs hc
  constructor
  · rintro (hnone | ⟨m, hm, hlt⟩)
    · rw [hstep]; simp [getVersionText, hspawn, hnone]
    · rw [hstep]; simp [getVersionText, hspawn, hm, hlt]
  · intro m hm h8
    rw [hstep]; simp [getVersionText, hspawn, hm, Nat.not_lt.mpr h8]

/-- Witness for claim C3: the boundary versions 8 (passes) and 7 (fails). -/
theorem claim_C3_witness :
    resolveAndValidate envV8 1 "node" none [] =
      some (.ok ⟨"/usr/bin/node", some 8⟩,
            [("/usr/bin/node", ⟨"/usr/bin/node", some 8⟩)]) ∧
    resolveAndValidate envV7 1 "node" none [] =
      some (.error (.binaryOutOfDate "v7.10.0" "/usr/bin/node"), []) :=
  ⟨(claim_C3_version_gate.1 envV8 0 "node" "/usr/bin/node" [] "v8.0.0"
      rfl rfl rfl rfl).2 8 rfl (by decide),
   (claim_C3_version_gate.1 envV7 0 "node" "/usr/bin/node" [] "v7.10.0"
      rfl rfl rfl rfl).1 (Or.inr ⟨7, rfl, by decide⟩)⟩

/-- Claim C4: a failed resolution leaves the cache exactly as it was, and a
subsequent resolution of the same path re-runs the probe and succeeds when
the probe now reports a passing version. -/
theorem claim_C4_no_negative_caching :
    (∀ (fuel : Nat) (env : EnvModel) (exe : String) (ev : Option Nat)
        (cache : Cache) (e : NodeSearchError) (c' : Cache),
        resolveAndValidate env fuel exe ev cache = some (.error e, c') →
        c' = cache) ∧
    (∀ (env env' : EnvModel) (fuel fuel' : Nat) (exe loc : String)
        (cache : Cache) (ver : String) (m : Nat) (e : NodeSearchError)
        (c' : Cache),
        resolveAndValidate env fuel exe none cache = some (.error e, c') →
        cacheLookup cache loc = none →
        locate env' exe = some loc →
        isNodeShape (basenamePosix loc) = true →
        env'.spawnVersion loc = some ver →
        execMajorVersion ver = some m →
        8 ≤ m →
        resolveAndValidate env' (fuel' + 1) exe none c' =
          some (.ok ⟨loc, some m⟩, cacheInsert c' loc ⟨loc, some m⟩)) := by
  have part1 : ∀ (fuel : Nat) (env : EnvModel) (exe : String) (ev : Option Nat)
      (cache : Cache) (e : NodeSearchError) (c' : Cache),
      resolveAndValidate env fuel exe ev cache = some (.error e, c') →
      c' = cache := by
    intro fuel
    induction fuel with
    | zero =>
      intro env exe ev cache e c' h
      rw [resolve_zero] at h
      exact Option.noConfusion h
    | succ n ih =>
      intro env exe ev cache e c' h
      cases hl : locate env exe with
      | none =>
        rw [resolve_locate_none env n exe ev cache hl] at h
        simp only [Option.some.injEq, Prod.mk.injEq] at h
        exact h.2.symm
      | some loc =>
        by_cases hv : ev.getD 0 ≠ 0
        · rw [resolve_explicit env n exe loc ev cache hl hv] at h
          simp at h
        · push_neg at hv
          by_cases hsh : isNodeShape (basenamePosix loc) = true
          · cases hcl : cacheLookup cache loc with
            | some g =>
              rw [resolve_cached env n exe loc ev cache g hl hv hsh hcl] at h
              simp at h
            | none =>
              rw [resolve_probe env n exe loc ev cache hl hv hsh hcl] at h
              cases hsp : env.spawnVersion loc with
              | none =>
                simp only [getVersionText, hsp, Option.some.injEq,
                  Prod.mk.injEq] at h
                exact h.2.symm
              | some ver =>
                simp only [getVersionText, hsp] at h
                cases hmv : execMajorVersion ver with
                | none =>
                  simp only [hmv, Option.some.injEq, Prod.mk.injEq] at h
                  exact h.2.symm
                | some m =>
                  by_cases hlt : m < 8
                  · simp only [hmv, hlt, if_true, Option.some.injEq,
                      Prod.mk.injEq] at h
                    exact h.2.symm
                  · simp only [hmv, hlt, if_false] at h
                    simp at h
          · simp only [Bool.not_eq_true] at hsh
            rw [resolve_shape_mismatch env n exe loc ev cache hl hv hsh] at h
            cases hin : resolveAndValidate env n "node" none cache with
            | none => rw [hin] at h; cases h
            | some rc =>
              obtain ⟨res, c''⟩ := rc
              cases res with
              | ok rb => rw [hin] at h; simp at h
              | error einner =>
                cases einner with
                | binaryNotFound nm => rw [hin] at h; simp at h
                | binaryOutOfDate t p =>
                  rw [hin] at h
                  simp only [Option.some.injEq, Prod.mk.injEq] at h
                  rw [← h.2]
                  exact ih env "node" none cache (.binaryOutOfDate t p) c'' hin
  refine ⟨part1, ?_⟩
  intro env env' fuel fuel' exe loc cache ver m e c' hfail hc hloc hs hsp hm h8
  have hcc := part1 fuel env exe none cache e c' hfail
  subst hcc
  rw [resolve_probe env' fuel' exe loc none c' hloc rfl hs hc]
  simp [getVersionText, hsp, hm, Nat.not_lt.mpr h8]

/-- Witness for claim C4: a too-old probe result fails and leaves the cache
empty; with the binary upgraded in place the very next call succeeds. -/
theorem claim_C4_witness :
    resolveAndValidate envOld7 1 "node" none [] =
      some (.error (.binaryOutOfDate "v7.0.0" "/usr/bin/node"), []) ∧
    resolveAndValidate envNew14 1 "node" none [] =
      some (.ok ⟨"/usr/bin/node", some 14⟩,
            [("/usr/bin/node", ⟨"/usr/bin/node", some 14⟩)]) :=
  ⟨rfl,
   claim_C4_no_negative_caching.2 envOld7 envNew14 1 0 "node" "/usr/bin/node"
     [] "v14.2.0\n" 14 (.binaryOutOfDate "v7.0.0" "/usr/bin/node") []
     rfl rfl rfl rfl rfl rfl (by decide)⟩

theorem cacheLookup_insert_self (c : Cache) (k : String) (v : NodeBinary) :
    cacheLookup (cacheInsert c k v) k = some v := by
  simp [cacheInsert, cacheLookup]

/-- Inversion: a call can only run out of fuel through the shape-mismatch
fallback, i.e. when the located path fails the shape check, the explicit
version is falsy, and the inner canonical-name call itself ran out. -/
theorem resolve_none_inversion (env : EnvModel) (fuel : Nat) (exe : String)
    (ev : Option Nat) (cache : Cache)
    (h : resolveAndValidate env (fuel + 1) exe ev cache = none) :
    ∃ loc, locate env exe = some loc ∧ ev.getD 0 = 0 ∧
      isNodeShape (basenamePosix loc) = false ∧
      resolveAndValidate env fuel "node" none cache = none := by
  cases hl : locate env exe with
  | none =>
    rw [resolve_locate_none env fuel exe ev cache hl] at h
    cases h
  | some loc =>
    by_cases hv : ev.getD 0 ≠ 0
    · rw [resolve_explicit env fuel exe loc ev cache hl hv] at h
      cases h
    · push_neg at hv
      by_cases hsh : isNodeShape (basenamePosix loc) = true
      · cases hcl : cacheLookup cache loc with
        | some g =>
          rw [resolve_cached env fuel exe loc ev cache g hl hv hsh hcl] at h
          cases h
        | none =>
          rw [resolve_probe env fuel exe loc ev cache hl hv hsh hcl] at h
          cases hsp : env.spawnVersion loc with
          | none => simp [getVersionText, hsp] at h
          | some ver =>
            simp only [getVersionText, hsp] at h
            cases hmv : execMajorVersion ver with
            | none => simp [hmv] at h
            | some m =>
              by_cases hlt : m < 8 <;> simp [hmv, hlt] at h
      · simp only [Bool.not_eq_true] at hsh
        rw [resolve_shape_mismatch env fuel exe loc ev cache hl hv hsh] at h
        cases hin : resolveAndValidate env fuel "node" none cache with
        | none => exact ⟨loc, rfl, hv, hsh, rfl⟩
        | some rc =>
          obtain ⟨res, c''⟩ := rc
          rw [hin] at h
          cases res with
          | ok rb => cases h
          | error einner => cases einner <;> cases h

/-- Claim C8 (amended): recursion depth is capped at 1 — i.e. a fuel budget
of 2 calls never runs out — PROVIDED every location the environment resolves
for the canonical name `node` passes the shape check.  (The code itself does
not guarantee that proviso: see the counterexample, where `node` resolves to
a `node.cmd` shim and the recursion is unbounded.) -/
theorem claim_C8_bounded_recursion (env : EnvModel) (exe : String)
    (ev : Option Nat) (cache : Cache)
    (hcanon : ∀ loc, locate env "node" = some loc →
        isNodeShape (basenamePosix loc) = true) :
    resolveAndValidate env 2 exe ev cache ≠ none := by
  intro h
  obtain ⟨loc1, hl1, hv1, hs1, h1⟩ := resolve_none_inversion env 1 exe ev cache h
  obtain ⟨loc2, hl2, hv2, hs2, h2⟩ :=
    resolve_none_inversion env 0 "node" none cache h1
  rw [hcanon loc2 hl2] at hs2
  cases hs2

/-- Witness for claim C8: in an environment whose canonical `node` resolves
to a shape-passing path, the shim lookup completes within the depth-1
budget. -/
theorem claim_C8_witness :
    resolveAndValidate envNode14 2 "nvm-node" none [] ≠ none :=
  claim_C8_bounded_recursion envNode14 "nvm-node" none []
    (fun loc hl => by
      rw [show locate envNode14 "node" = some "/usr/bin/node" from rfl] at hl
      obtain rfl := Option.some.inj hl
      rfl)

/-- Counterexample to claim C8 as stated: when the PATH resolves the
canonical name `node` to a shape-mismatched path (a `node.cmd` wrapper — the
PATH searcher's contract explicitly allows platform extension resolution),
the inner call re-enters the fallback branch, so a recursion depth of 1 does
not suffice, and indeed no finite depth does. -/
theorem claim_C8_counterexample :
    locate envNodeCmd "node" = some "/usr/lib/node.cmd" ∧
    isNodeShape (basenamePosix "/usr/lib/node.cmd") = false ∧
    resolveAndValidate envNodeCmd 2 "npm" none [] = none ∧
    resolveAndValidate envNodeCmd 10 "npm" none [] = none :=
  ⟨rfl, rfl, rfl, rfl⟩

/-- Claim C7: after a successful resolution of a shape-check-passing absolute
path, the result is in the cache, and a second resolution of the same path —
in ANY environment, in particular one whose probe always fails — returns the
identical descriptor and cache, served from the cache. -/
theorem claim_C7_idempotent_resolution (env env' : EnvModel)
    (fuel fuel' : Nat) (exe : String) (cache c1 : Cache) (b : NodeBinary)
    (hne : exe ≠ "") (habs : isAbsolutePosix exe = true)
    (hs : isNodeShape (basenamePosix exe) = true)
    (h1 : resolveAndValidate env (fuel + 1) exe none cache = some (.ok b, c1)) :
    cacheLookup c1 exe = some b ∧
    resolveAndValidate env' (fuel' + 1) exe none c1 = some (.ok b, c1) := by
  have hloc : locate env exe = some exe := locate_absolute env exe hne habs
  have hloc' : locate env' exe = some exe := locate_absolute env' exe hne habs
  have hmem : cacheLookup c1 exe = some b := by
    cases hcl : cacheLookup cache exe with
    | some g =>
      rw [resolve_cached env fuel exe exe none cache g hloc rfl hs hcl] at h1
      simp only [Option.some.injEq, Prod.mk.injEq, Except.ok.injEq] at h1
      rw [← h1.2, ← h1.1]
      exact hcl
    | none =>
      rw [resolve_probe env fuel exe exe none cache hloc rfl hs hcl] at h1
      cases hsp : env.spawnVersion exe with
      | none => simp [getVersionText, hsp] at h1
      | some ver =>
        simp only [getVersionText, hsp] at h1
        cases hmv : execMajorVersion ver with
        | none => simp [hmv] at h1
        | some m =>
          by_cases hlt : m < 8
          · simp [hmv, hlt] at h1
          · simp only [hmv, hlt, if_false] at h1
            simp only [Option.some.injEq, Prod.mk.injEq, Except.ok.injEq] at h1
            rw [← h1.2, ← h1.1]
            exact cacheLookup_insert_self cache exe ⟨exe, some m⟩
  exact ⟨hmem, resolve_cached env' fuel' exe exe none c1 b hloc' rfl hs hmem⟩

/-- Witness for claim C7: a first probing resolution of `/usr/bin/node`, then
a second call in an environment whose probe always fails, still returning the
identical descriptor and cache. -/
theorem claim_C7_witness :
    resolveAndValidate envNode14 1 "/usr/bin/node" none [] =
      some (.ok ⟨"/usr/bin/node", some 14⟩,
            [("/usr/bin/node", ⟨"/usr/bin/node", some 14⟩)]) ∧
    cacheLookup [("/usr/bin/node", ⟨"/usr/bin/node", some 14⟩)] "/usr/bin/node" =
      some ⟨"/usr/bin/node", some 14⟩ ∧
    resolveAndValidate (⟨fun _ => none, fun _ => none⟩ : EnvModel) 1
        "/usr/bin/node" none [("/usr/bin/node", ⟨"/usr/bin/node", some 14⟩)] =
      some (.ok ⟨"/usr/bin/node", some 14⟩,
            [("/usr/bin/node", ⟨"/usr/bin/node", some 14⟩)]) := by
  have h := claim_C7_idempotent_resolution envNode14
    (⟨fun _ => none, fun _ => none⟩ : EnvModel) 0 0 "/usr/bin/node" []
    [("/usr/bin/node", ⟨"/usr/bin/node", some 14⟩)]
    ⟨"/usr/bin/node", some 14⟩ (by decide) rfl rfl rfl
  exact ⟨rfl, h.1, h.2⟩

/-- Claim C10: every entry the resolver ever inserts into the known-good
cache was produced by a successful version probe: an entry not already
present in the starting cache is keyed by a shape-check-passing path, its
descriptor is that path with the major version parsed from the probe's
output, and that major is at least 8.  Descriptors from the explicit-version
shortcut or the shape-mismatch fallback can never match this shape (the
fallback's key would fail the shape check), so they are never inserted; and
consequently cache goodness is preserved by every call. -/
theorem claim_C10_cache_invariant :
    (∀ (fuel : Nat) (env : EnvModel) (exe : String) (ev : Option Nat)
        (cache : Cache) (r : Except NodeSearchError NodeBinary) (c' : Cache),
        resolveAndValidate env fuel exe ev cache = some (r, c') →
        ∀ k b, cacheLookup c' k = some b →
          cacheLookup cache k = some b ∨
            (∃ m ver, b = ⟨k, some m⟩ ∧ 8 ≤ m ∧
              isNodeShape (basenamePosix k) = true ∧
              env.spawnVersion k = some ver ∧
              execMajorVersion ver = some m)) ∧
    (∀ (fuel : Nat) (env : EnvModel) (exe : String) (ev : Option Nat)
        (cache : Cache) (r : Except NodeSearchError NodeBinary) (c' : Cache),
        CacheGood cache →
        resolveAndValidate env fuel exe ev cache = some (r, c') →
        CacheGood c') := by
  have part1 : ∀ (fuel : Nat) (env : EnvModel) (exe : String) (ev : Option Nat)
      (cache : Cache) (r : Except NodeSearchError NodeBinary) (c' : Cache),
      resolveAndValidate env fuel exe ev cache = some (r, c') →
      ∀ k b, cacheLookup c' k = some b →
        cacheLookup cache k = some b ∨
          (∃ m ver, b = ⟨k, some m⟩ ∧ 8 ≤ m ∧
            isNodeShape (basenamePosix k) = true ∧
            env.spawnVersion k = some ver ∧
            execMajorVersion ver = some m) := by
    intro fuel
    induction fuel with
    | zero =>
      intro env exe ev cache r c' h
      rw [resolve_zero] at h
      exact Option.noConfusion h
    | succ n ih =>
      intro env exe ev cache r c' h k b hkb
      cases hl : locate env exe with
      | none =>
        rw [resolve_locate_none env n exe ev cache hl] at h
        simp only [Option.some.injEq, Prod.mk.injEq] at h
        rw [← h.2] at hkb
        exact Or.inl hkb
      | some loc =>
        by_cases hv : ev.getD 0 ≠ 0
        · rw [resolve_explicit env n exe loc ev cache hl hv] at h
          simp only [Option.some.injEq, Prod.mk.injEq] at h
          rw [← h.2] at hkb
          exact Or.inl hkb
        · push_neg at hv
          by_cases hsh : isNodeShape (basenamePosix loc) = true
          · cases hcl : cacheLookup cache loc with
            | some g =>
              rw [resolve_cached env n exe loc ev cache g hl hv hsh hcl] at h
              simp only [Option.some.injEq, Prod.mk.injEq] at h
              rw [← h.2] at hkb
              exact Or.inl hkb
            | none =>
              rw [resolve_probe env n exe loc ev cache hl hv hsh hcl] at h
              cases hsp : env.spawnVersion loc with
              | none =>
                simp only [getVersionText, hsp, Option.some.injEq,
                  Prod.mk.injEq] at h
                rw [← h.2] at hkb
                exact Or.inl hkb
              | some ver =>
                simp only [getVersionText, hsp] at h
                cases hmv : execMajorVersion ver with
                | none =>
                  simp only [hmv, Option.some.injEq, Prod.mk.injEq] at h
                  rw [← h.2] at hkb
                  exact Or.inl hkb
                | some m =>
                  by_cases hlt : m < 8
                  · simp only [hmv, hlt, if_true, Option.some.injEq,
                      Prod.mk.injEq] at h
                    rw [← h.2] at hkb
                    exact Or.inl hkb
                  · simp only [hmv, hlt, if_false, Option.some.injEq,
                      Prod.mk.injEq] at h
                    rw [← h.2] at hkb
                    by_cases hk : loc = k
                    · subst hk
                      rw [cacheLookup_insert_self] at hkb
                      obtain rfl := Option.some.inj hkb
                      exact Or.inr ⟨m, ver, rfl, Nat.not_lt.mp hlt, hsh, hsp, hmv⟩
                    · simp only [cacheInsert, cacheLookup, hk, if_false] at hkb
                      exact Or.inl hkb
          · simp only [Bool.not_eq_true] at hsh
            rw [resolve_shape_mismatch env n exe loc ev cache hl hv hsh] at h
            cases hin : resolveAndValidate env n "node" none cache with
            | none => rw [hin] at h; cases h
            | some rc =>
              obtain ⟨res, c''⟩ := rc
              have hstep := ih env "node" none cache res c'' hin
              cases res with
              | ok rb =>
                rw [hin] at h
                simp only [Option.some.injEq, Prod.mk.injEq] at h
                rw [← h.2] at hkb
                exact hstep k b hkb
              | error einner =>
                cases einner with
                | binaryNotFound nm =>
                  rw [hin] at h
                  simp only [Option.some.injEq, Prod.mk.injEq] at h
                  rw [← h.2] at hkb
                  exact hstep k b hkb
                | binaryOutOfDate t p =>
                  rw [hin] at h
                  simp only [Option.some.injEq, Prod.mk.injEq] at h
                  rw [← h.2] at hkb
                  exact hstep k b hkb
  refine ⟨part1, ?_⟩
  intro fuel env exe ev cache r c' hgood h k b hkb
  rcases part1 fuel env exe ev cache r c' h k b hkb with hold | hnew
  · exact hgood k b hold
  · obtain ⟨m, ver, rfl, h8, -, -, -⟩ := hnew
    exact ⟨m, rfl, h8⟩

/-- Witness for claim C10: starting from the empty (trivially good) cache, a
shim resolution stores only the probed real-`node` entry, and the resulting
cache is good. -/
theorem claim_C10_witness :
    CacheGood ([] : Cache) ∧
    resolveAndValidate envNode14 2 "nvm-node" none [] =
      some (.ok ⟨"/usr/local/bin/nvm-node", some 14⟩,
            [("/usr/bin/node", ⟨"/usr/bin/node", some 14⟩)]) ∧
    CacheGood [("/usr/bin/node", ⟨"/usr/bin/node", some 14⟩)] :=
  ⟨fun _ _ h => Option.noConfusion h, rfl,
   claim_C10_cache_invariant.2 2 envNode14 "nvm-node" none []
     (.ok ⟨"/usr/local/bin/nvm-node", some 14⟩)
     [("/usr/bin/node", ⟨"/usr/bin/node", some 14⟩)]
     (fun _ _ h => Option.noConfusion h) rfl⟩

end NodeBinaryProvider
